import Mathlib

/-!
Verification of `src/src/web/prepare.ts` (code/code-cell directives, code-block
option coercion, site build orchestration) and `src/unnamed/part_000`
(LaTeX character handlers) from this repository.

The TypeScript source is shallowly embedded: dynamic JS values are the
inductive `Value`, option bags become typed structures matching the declared
directive option schemas (the directive framework coerces options before the
functions modelled here run), diagnostics emitted through `fileWarn`/`fileError`
become explicit `Diag` lists in the return value, and the async build
orchestration becomes an event-trace semantics where `await Promise.all`
is an abstract scheduler parameter that interleaves the child traces.
-/

namespace MystSpec

/-- A dynamic JavaScript/YAML value, as flows through `parseTags(input: any)`.
Numbers are modelled as integers (the tag values at issue are strings and
lists; `NaN` and non-integral numbers play no role in the claims). -/
inductive Value where
  | null : Value
  | bool (b : Bool) : Value
  | num (n : Int) : Value
  | str (s : String) : Value
  | list (l : List Value) : Value

/-- A diagnostic emitted through `fileError` / `fileWarn` on the vfile. -/
inductive Diag where
  | err (msg : String) : Diag
  | warn (msg : String) : Diag
  deriving DecidableEq

/-- Character-list splitting used to model `String.prototype.split` with a
single-character class: every matching character is a separator and empty
segments are kept. (Implemented over `String.data` so that terms reduce.) -/
def splitCharsAux (p : Char → Bool) : List Char → List Char → List (List Char)
  | [], acc => [acc.reverse]
  | c :: rest, acc =>
    if p c then acc.reverse :: splitCharsAux p rest []
    else splitCharsAux p rest (c :: acc)

/-- `s.split(<single-character class p>)` in JS. -/
def jsSplit (p : Char → Bool) (s : String) : List String :=
  (splitCharsAux p s.data []).map (fun l => String.mk l)

/-- `String.prototype.trim`: drop leading and trailing whitespace. -/
def jsTrim (s : String) : String :=
  String.mk (((s.data.dropWhile Char.isWhitespace).reverse.dropWhile
    Char.isWhitespace).reverse)

/-- `String.prototype.toLowerCase` (ASCII, which covers the `"false"` test). -/
def jsLower (s : String) : String :=
  String.mk (s.data.map Char.toLower)

/-- JavaScript falsiness (`!input`) restricted to the modelled values:
`undefined`/`null`, `false`, `0` and `""` are falsy; arrays are truthy. -/
def falsy : Value → Bool
  | .null => true
  | .bool b => !b
  | .num n => n == 0
  | .str s => s == ""
  | .list _ => false

/-- `input.startsWith('[') && input.endsWith(']')` from `parseTags`. -/
def isBracketed (s : String) : Bool :=
  (match s.data with | '[' :: _ => true | _ => false) &&
    (match s.data.getLast? with | some ']' => true | _ => false)

/-- `input.split(/[,\s]/)` from `parseTags`: split on every comma or
whitespace character, keeping empty segments (they are filtered next). -/
def splitTags (s : String) : List String :=
  jsSplit (fun c => c == ',' || c.isWhitespace) s

/-- `tags.every((t) => typeof t === 'string')`. -/
def allStrings (l : List Value) : Bool :=
  l.all (fun v => match v with | .str _ => true | _ => false)

/-- The string payloads of a list of values (total on `allStrings` lists). -/
def getStrings (l : List Value) : List String :=
  l.filterMap (fun v => match v with | .str s => some s | _ => none)

/-- Message of the `fileError` in the bracketed-string branch of `parseTags`. -/
def tagLoadErrorMsg : String := "Could not load tags for code-cell directive"

/-- Message of the `fileWarn` in the non-string-list branch of `parseTags`. -/
def tagListWarnMsg : String := "tags in code-cell directive must be a list of strings"

/-- One unfolding of `parseTags` from `src/src/web/prepare.ts`, with the
recursive call on the yaml-loaded value abstracted as `recur` and the external
`yaml.load` abstracted as `yl` (`none` models a parse throw, caught by the
`try`/`catch`). Branches in source order: falsy input; bracketed string
(structured parse and recursion, error diagnostic on failure); plain string
(split/trim/drop-empty, `undefined` on empty result); non-array; array of
strings (returns the trimmed filtered list when the input list is non-empty,
falls through to `undefined` otherwise); array with a non-string (warning). -/
def parseTagsStep (yl : String → Option Value)
    (recur : Value → Option (List String) × List Diag) (input : Value) :
    Option (List String) × List Diag :=
  if falsy input then (none, [])
  else
    match input with
    | .str s =>
      if isBracketed s then
        match yl s with
        | some w => recur w
        | none => (none, [Diag.err tagLoadErrorMsg])
      else
        let tags := ((splitTags s).map jsTrim).filter (fun t => t != "")
        (if tags.length > 0 then some tags else none, [])
    | .list l =>
      if allStrings l then
        if l.length > 0 then
          (some (((getStrings l).map jsTrim).filter (fun t => t != "")), [])
        else (none, [])
      else (none, [Diag.warn tagListWarnMsg])
    | _ => (none, [])

/-- `parseTags`, with the unbounded recursion through `yaml.load` bounded by
explicit fuel. A real YAML load of a bracketed flow sequence returns an array,
never a bracketed string again, so one unit of fuel beyond the outer call
suffices on every input reachable in the source; exhausted fuel returns the
neutral `(none, [])`. -/
def parseTagsF (yl : String → Option Value) : Nat → Value → Option (List String) × List Diag
  | 0 => parseTagsStep yl (fun _ => (none, []))
  | n + 1 => parseTagsStep yl (parseTagsF yl n)

/-- The resolved `startingLineNumber`: a number, or the `'match'` sentinel
assigned when `lineno-match` is truthy (`startingLineNumber = 'match' as any`). -/
inductive LineStart where
  | num (n : Int) : LineStart
  | matchLine : LineStart
  deriving DecidableEq

/-- The options read by `getCodeBlockOptions`, already coerced per the
declared option schema (`linenos`/`lineno-match`: Boolean, `lineno-start`/
`number-lines`: Number, `emphasize-lines`/`filename`: String); `none` is an
absent (or `undefined`/`null`) option. -/
structure CodeBlockOptions where
  linenos : Option Bool := none
  linenoStart : Option Int := none
  numberLines : Option Int := none
  linenoMatch : Option Bool := none
  emphasizeLines : Option String := none
  filename : Option String := none
  deriving DecidableEq

/-- JS truthiness of a possibly-absent boolean option. -/
def truthyB : Option Bool → Bool
  | some b => b
  | none => false

/-- JS truthiness of a possibly-absent numeric option (`0` is falsy). -/
def truthyI : Option Int → Bool
  | some n => n != 0
  | none => false

/-- JS truthiness of a possibly-absent string (`""` is falsy). -/
def truthyS : Option String → Bool
  | some s => s != ""
  | none => false

/-- Decimal digits to a natural number; `none` on a non-digit or on the
empty list. -/
def digitsToNat? : List Char → Option Nat
  | [] => none
  | l => l.foldl (fun acc c => match acc with
      | none => none
      | some n => if c.isDigit then some (n * 10 + (c.toNat - 48)) else none)
      (some 0)

/-- `Number(val)` restricted to integer results: the source keeps only
`Number.isInteger` values, `Number('') = 0`, and non-numeric strings give
`NaN` (dropped). Non-decimal spellings (hex, exponents) are not modelled;
they do not occur in any claim. -/
def jsNumberInt (s : String) : Option Int :=
  if s = "" then some 0
  else match s.data with
    | '-' :: rest => (digitsToNat? rest).map (fun n => -(n : Int))
    | l => (digitsToNat? l).map (fun n => (n : Int))

/-- `parseEmphasizeLines` from `src/src/web/prepare.ts`: falsy input gives
`undefined`; otherwise split on commas, convert each trimmed entry with
`Number`, keep the integers. -/
def parseEmphasizeLines (s : Option String) : Option (List Int) :=
  match s with
  | none => none
  | some s =>
    if s = "" then none
    else some ((jsSplit (fun c => c == ',') s).filterMap (fun v => jsNumberInt (jsTrim v)))

/-- Message of the `fileWarn` for mutually exclusive numbering options. -/
def linenoWarnMsg : String := "Cannot use both \"lineno-start\" and \"number-lines\""

/-- The value returned by `getCodeBlockOptions`, with the diagnostics it
emitted on the vfile made explicit. -/
structure CodeBlockResult where
  emphasizeLines : Option (List Int)
  showLineNumbers : Option Bool
  startingLineNumber : Option LineStart
  filename : Option String
  warnings : List String
  deriving DecidableEq

/-- `getCodeBlockOptions` from `src/src/web/prepare.ts`, line for line:
warn when both `lineno-start` and `number-lines` are non-null; parse
`emphasize-lines`; `showLineNumbers` is `true` when any of `linenos`,
`lineno-start`, `lineno-match`, `number-lines` is truthy, else absent;
`startingLineNumber` starts as `number-lines` when that is non-null and
`> 1`, else `lineno-start`, is overwritten by the `'match'` sentinel when
`lineno-match` is truthy, and is cleared when null or `<= 1`; a `filename`
whose lowercase form is `"false"` is discarded, a falsy `filename` is
replaced by a truthy `defaultFilename`. -/
def getCodeBlockOptions (o : CodeBlockOptions) (defaultFilename : Option String) :
    CodeBlockResult :=
  let warnings :=
    if o.linenoStart.isSome && o.numberLines.isSome then [linenoWarnMsg] else []
  let emphasizeLines := parseEmphasizeLines o.emphasizeLines
  let showLineNumbers : Option Bool :=
    if truthyB o.linenos || truthyI o.linenoStart || truthyB o.linenoMatch
        || truthyI o.numberLines then some true else none
  let slnRaw : Option Int :=
    match o.numberLines with
    | some n => if n > 1 then some n else o.linenoStart
    | none => o.linenoStart
  let startingLineNumber : Option LineStart :=
    if truthyB o.linenoMatch then some LineStart.matchLine
    else
      match slnRaw with
      | none => none
      | some n => if n ≤ 1 then none else some (LineStart.num n)
  let filename : Option String :=
    if (o.filename.map jsLower) = some "false" then none
    else if !truthyS o.filename && truthyS defaultFilename then defaultFilename
    else o.filename
  { emphasizeLines := emphasizeLines
    showLineNumbers := showLineNumbers
    startingLineNumber := startingLineNumber
    filename := filename
    warnings := warnings }

/-- A `Code` mdast node (`myst-spec-ext`), with exactly the fields the two
`run` functions set. Optional fields set to `undefined` in JS are `none`. -/
structure CodeNode where
  lang : Option String := none
  classAttr : Option String := none
  emphasizeLines : Option (List Int) := none
  showLineNumbers : Option Bool := none
  startingLineNumber : Option LineStart := none
  filename : Option String := none
  executable : Option Bool := none
  value : Option String := none
  label : Option String := none
  identifier : Option String := none

/-- The mdast nodes produced by the two directives. A `block`'s `data`
object `{ type: 'notebook-code', tags? }` is flattened into the `dataType`
and `tags` fields; an absent `tags` entry is `none`. -/
inductive Node where
  | code (c : CodeNode) : Node
  | caption (children : List Node) : Node
  | paragraph (children : List Node) : Node
  | container (kind : String) (label identifier : Option String)
      (children : List Node) : Node
  | block (label identifier : Option String) (dataType : String)
      (tags : Option (List String)) (children : List Node) : Node
  | output (id : String) (dataList : List Node) : Node

/-- Typed view of `codeDirective.run`'s input `data`: the `label`, `class`
and `caption` options, the code-block display options, the argument and the
body. The `caption` option has type `'myst'`, so its value is a list of
parsed nodes (always truthy in JS when present). -/
structure CodeDirectiveData where
  label : Option String := none
  classOpt : Option String := none
  caption : Option (List Node) := none
  cbOptions : CodeBlockOptions := {}
  arg : Option String := none
  body : Option String := none

/-- `codeDirective.run` from `src/src/web/prepare.ts`. `nl` abstracts
`normalizeLabel` from `myst-common` (not under `src/`): it maps the raw
`label` option to the `{ label, identifier }` pair left after `|| {}`.
Without a `caption` option the bare `Code` node gets the label/identifier
and is returned alone; with one, a `Container` of kind `code` carrying the
label/identifier wraps the (unlabelled) `Code` node and a `Caption` holding
a paragraph of the caption nodes. The second component collects the
diagnostics `getCodeBlockOptions` wrote to the vfile.
(`codeDirectiveCodeNode` is the `code` object literal built first, spread
from the argument, class option, display options and body.) -/
def codeDirectiveCodeNode (d : CodeDirectiveData) : CodeNode :=
  let opts := getCodeBlockOptions d.cbOptions none
  { lang := d.arg
    classAttr := d.classOpt
    emphasizeLines := opts.emphasizeLines
    showLineNumbers := opts.showLineNumbers
    startingLineNumber := opts.startingLineNumber
    filename := opts.filename
    value := d.body }

def codeDirective_run (nl : Option String → Option String × Option String)
    (d : CodeDirectiveData) : List Node × List String :=
  let label := (nl d.label).1
  let identifier := (nl d.label).2
  let opts := getCodeBlockOptions d.cbOptions none
  let code : CodeNode := codeDirectiveCodeNode d
  match d.caption with
  | none =>
    ([Node.code { code with label := label, identifier := identifier }], opts.warnings)
  | some cap =>
    let captionNode := Node.caption [Node.paragraph cap]
    ([Node.container "code" label identifier [Node.code code, captionNode]],
      opts.warnings)

/-- Typed view of `codeCellDirective.run`'s input `data`: the `label` and
`tags` options (the latter kept dynamic, as `parseTags` receives it), the
argument and the body. -/
structure CodeCellData where
  label : Option String := none
  tags : Option Value := none
  arg : Option String := none
  body : Option String := none

/-- `codeCellDirective.run` from `src/src/web/prepare.ts`. `nl` abstracts
`normalizeLabel` as in `codeDirective_run`; `freshId` is the value produced
by the external `nanoid()` call; `yl`/`fuel` feed `parseTagsF`. The function
builds an executable `Code` node (`lang` from the argument, `value` from the
body with `?? ''`), an `Output` node with the fresh id and empty data, and
one `Block` with data type `notebook-code`; `block.data.tags = tags` runs
exactly when `parseTags` returned a (JS-truthy) array, i.e. when the result
is `some`. An absent `tags` option reaches `parseTags` as `undefined`,
modelled by `Value.null` (both falsy). -/
def codeCellDirective_run (nl : Option String → Option String × Option String)
    (yl : String → Option Value) (fuel : Nat) (freshId : String)
    (d : CodeCellData) : List Node × List Diag :=
  let label := (nl d.label).1
  let identifier := (nl d.label).2
  let code : CodeNode :=
    { lang := d.arg
      executable := some true
      value := some (d.body.getD "") }
  let outputNode := Node.output freshId []
  let tags := (parseTagsF yl fuel (d.tags.getD Value.null)).1
  let diags := (parseTagsF yl fuel (d.tags.getD Value.null)).2
  ([Node.block label identifier "notebook-code" tags [Node.code code, outputNode]],
    diags)

/-- Modelled from the spec: the slice of the `ITexParser` state that
`createText` (in `src/unnamed/part_000`) touches. The interface lives outside
`src/`; per the spec, `openParagraph` opens a paragraph if none is open,
`text` emits a value into the currently open paragraph, and `warn` records a
diagnostic. Emitted values are `Option String` because the source passes the
possibly-`undefined` lookup result straight to `state.text`. -/
structure TexState where
  paragraphOpen : Bool := false
  emitted : List (Option String) := []
  warnings : List String := []
  deriving DecidableEq

/-- Modelled from the spec: `state.openParagraph()`. -/
def openParagraph (s : TexState) : TexState :=
  { s with paragraphOpen := true }

/-- Modelled from the spec: `state.text(value, false)`; appends the value
(possibly `undefined`) to the open paragraph. -/
def stateText (v : Option String) (s : TexState) : TexState :=
  { s with emitted := s.emitted ++ [v] }

/-- Modelled from the spec: `state.warn(message, ...)`. -/
def stateWarn (m : String) (s : TexState) : TexState :=
  { s with warnings := s.warnings ++ [m] }

/-- `createText` from `src/unnamed/part_000`: open a paragraph, read the
macro argument's text (`texToText(getArguments(node, 'group'))`, supplied
here directly as `argText`), look it up in the accent sub-table `translate`;
a truthy hit is emitted as text; otherwise a warning naming the character is
emitted and the (non-existent) converted value is still passed to
`state.text`. -/
def createText (translate : String → Option String) (argText : String)
    (s : TexState) : TexState :=
  let s1 := openParagraph s
  let converted := translate argText
  if truthyS converted then stateText converted s1
  else stateText converted (stateWarn ("Unknown character " ++ argText) s1)

/-- The acute-accent sub-table `accents["'"]` from `src/unnamed/part_000`. -/
def accentAcute : String → Option String
  | "o" => some "ó"
  | "O" => some "Ó"
  | _ => none

/-- Events observed while `buildSite` runs, one per awaited or effectful
operation in `src/src/web/prepare.ts`: the clean step, build-folder creation,
`loadProjectConfigFromDisk`, `cache.getCitationRenderer`, each
`cache.processFile` call, the settling of one project's `buildProject`, and
`writeSiteManifest`. -/
inductive BuildEvent where
  | cleanFiles : BuildEvent
  | ensureFolders : BuildEvent
  | loadProjectConfig (projPath : String) : BuildEvent
  | citationLoad (projPath : String) : BuildEvent
  | processFile (projPath : String) (file : String) : BuildEvent
  | projectDone (projPath : String) : BuildEvent
  | writeManifest : BuildEvent
  deriving DecidableEq

/-- A page of a local project; only pages with a slug (`'slug' in page`)
participate in the build. -/
structure LocalPage where
  file : String
  slug : Option String
  deriving DecidableEq

/-- The project configuration `loadProjectConfigFromDisk` returns: root
file, index slug, and the page list. -/
structure Project where
  file : String
  index : String
  pages : List LocalPage
  deriving DecidableEq

/-- An entry of `siteConfig.projects`. -/
structure SiteProject where
  path : String
  slug : String
  deriving DecidableEq

/-- The selected local site configuration. -/
structure SiteConfig where
  projects : List SiteProject
  deriving DecidableEq

/-- The subset of `Options` consulted by `buildSite`. -/
structure BuildOpts where
  force : Bool := false
  clean : Bool := false
  deriving DecidableEq

/-- Modelled from the spec: `new DocumentCache(session, opts)` — the cache
class itself lives outside `src/`; only its construction from the session
and options is visible here, which is all claim C10 needs. -/
structure DocumentCache where
  session : String
  opts : BuildOpts
  deriving DecidableEq

/-- The trace of one `buildProject(cache, siteProject)` call: the synchronous
`loadProjectConfigFromDisk`, then the awaited citation-renderer load, then
the `Promise.all` fan-out over `processFile` tasks (the index page first,
then every page carrying a slug), interleaved by the abstract scheduler
`sched`, and finally the settling of the call itself. `env` abstracts the
on-disk project configuration. -/
def buildProjectTrace (env : String → Project)
    (sched : List (List BuildEvent) → List BuildEvent)
    (sp : SiteProject) : List BuildEvent :=
  let project := env sp.path
  let pageTasks : List (List BuildEvent) :=
    [BuildEvent.processFile sp.path project.file] ::
      (project.pages.filter (fun p => p.slug.isSome)).map
        (fun p => [BuildEvent.processFile sp.path p.file])
  BuildEvent.loadProjectConfig sp.path :: BuildEvent.citationLoad sp.path ::
    (sched pageTasks ++ [BuildEvent.projectDone sp.path])

/-- `buildSite(session, opts)` as a result/trace pair: construct the cache,
optionally clean, create the build folders, and if the selected site config
is missing or has no projects return the cache there; otherwise run every
project's build under the abstract scheduler `schedProjects`
(`Promise.all`), then write the site manifest. -/
def buildSite (env : String → Project)
    (schedPages schedProjects : List (List BuildEvent) → List BuildEvent)
    (session : String) (cfg : Option SiteConfig) (opts : BuildOpts) :
    DocumentCache × List BuildEvent :=
  let cache : DocumentCache := { session := session, opts := opts }
  let pre :=
    (if opts.force || opts.clean then [BuildEvent.cleanFiles] else []) ++
      [BuildEvent.ensureFolders]
  match cfg with
  | none => (cache, pre)
  | some c =>
    if c.projects.isEmpty then (cache, pre)
    else
      (cache,
        pre ++ schedProjects (c.projects.map (buildProjectTrace env schedPages)) ++
          [BuildEvent.writeManifest])

/-- Concatenation of task traces: the trivial (sequential) scheduler, also
the reference ordering every admissible interleaving draws its events from. -/
def flattenEvents : List (List BuildEvent) → List BuildEvent
  | [] => []
  | l :: ls => l ++ flattenEvents ls

/-- First node's `data.tags` entry, when the node is a `block`. -/
def headBlockTags : List Node → Option (Option (List String))
  | Node.block _ _ _ t _ :: _ => some t
  | _ => none

/-- A concrete `yaml.load` for examples: loads the flow sequence `[a,b]`. -/
def ylExample : String → Option Value := fun s =>
  if s = "[a,b]" then some (Value.list [Value.str "a", Value.str "b"]) else none

/-- A concrete `normalizeLabel` for examples: label and identifier both echo
the raw option. -/
def nlExample : Option String → Option String × Option String := fun x => (x, x)

/-- A code-cell invocation with no options, for examples. -/
def cellDataPlain : CodeCellData :=
  { arg := some "python", body := some "print(1)" }

/-- A code-cell invocation whose `tags` option is a non-empty list of blank
strings. -/
def cellDataBlankTags : CodeCellData :=
  { tags := some (Value.list [Value.str " "]) }

/-- A concrete one-page project environment for examples. -/
def envExample : String → Project :=
  fun _ => { file := "index.md", index := "idx", pages := [] }

/-- A concrete single-project site configuration for examples. -/
def cfgExample : SiteConfig := { projects := [{ path := "p", slug := "s" }] }

/-! Helper lemmas shared by the claim theorems. -/

/-- A bracketed string is non-empty (so it is never JS-falsy). -/
theorem isBracketed_ne_empty {s : String} (h : isBracketed s = true) : s ≠ "" := by
  intro he
  subst he
  exact absurd h (by decide)

/-- Membership in the concatenation of task traces. -/
theorem mem_flattenEvents {e : BuildEvent} {ls : List (List BuildEvent)} :
    e ∈ flattenEvents ls ↔ ∃ l ∈ ls, e ∈ l := by
  induction ls with
  | nil => simp [flattenEvents]
  | cons l ls ih => simp [flattenEvents, ih]

/-- A project build never writes the site manifest: every event of
`buildProjectTrace` is a config load, the citation load, a scheduled
`processFile` task, or the settling of the project itself. -/
theorem writeManifest_not_in_project (env : String → Project)
    (sched : List (List BuildEvent) → List BuildEvent) (sp : SiteProject)
    (hs : ∀ ls e, e ∈ sched ls → e ∈ flattenEvents ls) :
    BuildEvent.writeManifest ∉ buildProjectTrace env sched sp := by
  intro hmem
  simp only [buildProjectTrace, List.mem_cons, List.mem_append,
    List.mem_singleton] at hmem
  rcases hmem with h | h | h | h
  · exact BuildEvent.noConfusion h
  · exact BuildEvent.noConfusion h
  · rcases mem_flattenEvents.mp (hs _ _ h) with ⟨l, hl, hel⟩
    simp only [List.mem_cons, List.mem_map] at hl
    rcases hl with rfl | ⟨p, _, rfl⟩
    · simp at hel
    · simp at hel
  · rcases h with h | h
    · exact BuildEvent.noConfusion h
    · simp at h

/-- The `filename` field of `getCodeBlockOptions`, in closed form. -/
theorem getCodeBlockOptions_filename (o : CodeBlockOptions) (d : Option String) :
    (getCodeBlockOptions o d).filename =
      (if (o.filename.map jsLower) = some "false" then none
       else if !truthyS o.filename && truthyS d then d
       else o.filename) := rfl

/-- The `startingLineNumber` field of `getCodeBlockOptions`, in closed form. -/
theorem getCodeBlockOptions_startingLineNumber (o : CodeBlockOptions)
    (d : Option String) :
    (getCodeBlockOptions o d).startingLineNumber =
      (if truthyB o.linenoMatch then some LineStart.matchLine
       else
        match (match o.numberLines with
               | some n => if n > 1 then some n else o.linenoStart
               | none => o.linenoStart) with
        | none => none
        | some n => if n ≤ 1 then none else some (LineStart.num n)) := rfl

/-- The `warnings` field of `getCodeBlockOptions`, in closed form. -/
theorem getCodeBlockOptions_warnings (o : CodeBlockOptions) (d : Option String) :
    (getCodeBlockOptions o d).warnings =
      (if o.linenoStart.isSome && o.numberLines.isSome then [linenoWarnMsg]
       else []) := rfl

/-! Claim theorems. -/

/-- Claim C3, counterexample: the claim quantifies over every option map in
which both `lineno-start` and `number-lines` are present, but on the map
`{ lineno-start: 5, number-lines: 3, lineno-match: true }` the resolved
`startingLineNumber` is the `match` sentinel, not the value `3` demanded by
the claimed precedence rule. -/
theorem lineno_precedence_counterexample :
    (getCodeBlockOptions
        { linenoStart := some 5, numberLines := some 3, linenoMatch := some true }
        none).startingLineNumber = some LineStart.matchLine ∧
      some LineStart.matchLine ≠ some (LineStart.num 3) :=
  ⟨rfl, by decide⟩

/-- Claim C3 (amended: provided `lineno-match` is not truthy): when both
`lineno-start` and `number-lines` are present, `getCodeBlockOptions` emits
exactly one warning, and the resolved `startingLineNumber` is `number-lines`
when that value exceeds 1, else `lineno-start` when that exceeds 1, else
`undefined`. -/
theorem lineno_precedence (o : CodeBlockOptions) (d : Option String) (a b : Int)
    (hs : o.linenoStart = some a) (hn : o.numberLines = some b)
    (hm : truthyB o.linenoMatch = false) :
    (getCodeBlockOptions o d).warnings = [linenoWarnMsg] ∧
    (getCodeBlockOptions o d).startingLineNumber =
      (if 1 < b then some (LineStart.num b)
       else if 1 < a then some (LineStart.num a) else none) := by
  constructor
  · rw [getCodeBlockOptions_warnings, hs, hn]
    rfl
  · rw [getCodeBlockOptions_startingLineNumber, hm, hn, hs]
    by_cases hb : 1 < b
    · simp [show b > 1 from hb, show ¬b ≤ 1 by omega]
    · by_cases ha : 1 < a
      · simp [show ¬b > 1 from hb, show ¬a ≤ 1 by omega, hb, ha]
      · simp [show ¬b > 1 from hb, show a ≤ 1 by omega, hb, ha]

/-- Claim C3, witness: `{ lineno-start: 5, number-lines: 3 }` yields exactly
one warning and resolves the starting line number to 3. -/
theorem lineno_precedence_witness :
    (getCodeBlockOptions { linenoStart := some 5, numberLines := some 3 }
        none).warnings = [linenoWarnMsg] ∧
    (getCodeBlockOptions { linenoStart := some 5, numberLines := some 3 }
        none).startingLineNumber = some (LineStart.num 3) :=
  lineno_precedence { linenoStart := some 5, numberLines := some 3 } none 5 3
    rfl rfl rfl

/-- Claim C4: a truthy `lineno-match` resolves `startingLineNumber` to the
`match` sentinel, short-circuiting numeric coercion, whatever the other
options (in particular even when `lineno-start` is set). -/
theorem linenoMatch_sentinel (o : CodeBlockOptions) (d : Option String)
    (hm : truthyB o.linenoMatch = true) :
    (getCodeBlockOptions o d).startingLineNumber = some LineStart.matchLine := by
  rw [getCodeBlockOptions_startingLineNumber, hm]
  rfl

/-- Claim C4, witness: `{ lineno-match: true, lineno-start: 5 }` resolves to
the `match` sentinel and not to a number. -/
theorem linenoMatch_sentinel_witness :
    (getCodeBlockOptions { linenoMatch := some true, linenoStart := some 5 }
        none).startingLineNumber = some LineStart.matchLine :=
  linenoMatch_sentinel { linenoMatch := some true, linenoStart := some 5 } none rfl

/-- Claim C7, counterexample: with the filename option present but empty and
a default `"a.py"` supplied, the claim's "otherwise the raw filename value is
used as-is" demands `""`, but the code substitutes the default. -/
theorem filename_empty_default_counterexample :
    (getCodeBlockOptions { filename := some "" } (some "a.py")).filename =
        some "a.py" ∧
      (some "a.py" : Option String) ≠ some "" :=
  ⟨rfl, by decide⟩

/-- Claim C7 (amended: an empty filename option counts as absent, and only a
non-empty default is substituted): a filename whose lowercase form is
`"false"` resolves to `undefined` regardless of the default; a truthy default
replaces an absent or empty filename; otherwise the raw value (including an
absent or empty one) is used as-is. -/
theorem filename_resolution (o : CodeBlockOptions) (d : Option String) :
    (∀ s, o.filename = some s → jsLower s = "false" →
      (getCodeBlockOptions o d).filename = none) ∧
    (truthyS o.filename = false → truthyS d = true →
      (getCodeBlockOptions o d).filename = d) ∧
    (truthyS o.filename = false → truthyS d = false →
      (getCodeBlockOptions o d).filename = o.filename) ∧
    (∀ s, o.filename = some s → s ≠ "" → jsLower s ≠ "false" →
      (getCodeBlockOptions o d).filename = some s) := by
  refine ⟨?_, ?_, ?_, ?_⟩
  · intro s hf hl
    rw [getCodeBlockOptions_filename, hf]
    simp [hl]
  · intro hf hd
    rw [getCodeBlockOptions_filename]
    cases hx : o.filename with
    | none =>
      rw [if_neg (show ¬Option.map jsLower (none : Option String) = some "false"
        by simp)]
      rw [if_pos (show (!truthyS (none : Option String) && truthyS d) = true
        by rw [hd]; decide)]
    | some s =>
      rw [hx] at hf
      have hse : s = "" := by simpa [truthyS] using hf
      subst hse
      rw [if_neg (by decide : ¬Option.map jsLower (some "") = some "false")]
      rw [if_pos (show (!truthyS (some "") && truthyS d) = true by rw [hd]; decide)]
  · intro hf hd
    rw [getCodeBlockOptions_filename]
    cases hx : o.filename with
    | none =>
      rw [if_neg (show ¬Option.map jsLower (none : Option String) = some "false"
        by simp)]
      rw [if_neg (show ¬(!truthyS (none : Option String) && truthyS d) = true
        by rw [hd]; simp)]
    | some s =>
      rw [hx] at hf
      have hse : s = "" := by simpa [truthyS] using hf
      subst hse
      rw [if_neg (by decide : ¬Option.map jsLower (some "") = some "false")]
      rw [if_neg (show ¬(!truthyS (some "") && truthyS d) = true
        by rw [hd]; simp)]
  · intro s hf hs hl
    rw [getCodeBlockOptions_filename, hf]
    simp [truthyS, hl, hs]

/-- Claim C7, witness: option `"FALSE"` resolves to `undefined` despite the
default `"a.py"`; an absent option with default `"a.py"` resolves to
`"a.py"`. -/
theorem filename_resolution_witness :
    (getCodeBlockOptions { filename := some "FALSE" } (some "a.py")).filename =
        none ∧
    (getCodeBlockOptions {} (some "a.py")).filename = some "a.py" :=
  ⟨(filename_resolution { filename := some "FALSE" } (some "a.py")).1 "FALSE"
      rfl (by decide),
   (filename_resolution {} (some "a.py")).2.1 rfl rfl⟩

/-- Claim C1: `codeDirective.run` returns a single bare `Code` node carrying
the normalized label/identifier when no `caption` option is supplied; with a
`caption` option it returns a single `Container` of kind `code` that carries
the label/identifier and wraps the `Code` node (which then carries neither)
and a `Caption` holding a paragraph of the caption content. A container
appears iff a caption was supplied, so the label/identifier are never on
both nodes. -/
theorem codeDirective_caption_container
    (nl : Option String → Option String × Option String) (d : CodeDirectiveData) :
    (d.caption = none →
      ∃ c : CodeNode, (codeDirective_run nl d).1 = [Node.code c] ∧
        c.label = (nl d.label).1 ∧ c.identifier = (nl d.label).2) ∧
    (∀ cap, d.caption = some cap →
      ∃ c : CodeNode, (codeDirective_run nl d).1 =
          [Node.container "code" (nl d.label).1 (nl d.label).2
            [Node.code c, Node.caption [Node.paragraph cap]]] ∧
        c.label = none ∧ c.identifier = none) ∧
    ((∃ k lb idf ch, (codeDirective_run nl d).1 = [Node.container k lb idf ch]) ↔
      d.caption.isSome) := by
  refine ⟨?_, ?_, ?_⟩
  · intro h
    refine ⟨{ codeDirectiveCodeNode d with
        label := (nl d.label).1, identifier := (nl d.label).2 }, ?_, rfl, rfl⟩
    simp [codeDirective_run, h]
  · intro cap h
    refine ⟨codeDirectiveCodeNode d, ?_, rfl, rfl⟩
    simp [codeDirective_run, h]
  · constructor
    · rintro ⟨k, lb, idf, ch, h⟩
      cases hc : d.caption with
      | none =>
        have h1 : (codeDirective_run nl d).1 =
            [Node.code { codeDirectiveCodeNode d with
              label := (nl d.label).1, identifier := (nl d.label).2 }] := by
          simp [codeDirective_run, hc]
        rw [h1] at h
        simp at h
      | some cap => rfl
    · intro h
      cases hc : d.caption with
      | none => rw [hc] at h; exact absurd h (by simp)
      | some cap =>
        refine ⟨"code", (nl d.label).1, (nl d.label).2,
          [Node.code (codeDirectiveCodeNode d),
           Node.caption [Node.paragraph cap]], ?_⟩
        simp [codeDirective_run, hc]

/-- Claim C1, witness: with a label option and no caption, the single result
node is a `Code` node carrying the normalized label and identifier; with a
caption, the single result node is a labelled container wrapping the
unlabelled code and the caption. -/
theorem codeDirective_caption_container_witness :
    (∃ c : CodeNode, (codeDirective_run nlExample { label := some "fig" }).1 =
        [Node.code c] ∧ c.label = some "fig" ∧ c.identifier = some "fig") ∧
    (∃ c : CodeNode,
      (codeDirective_run nlExample { label := some "fig", caption := some [] }).1 =
        [Node.container "code" (some "fig") (some "fig")
          [Node.code c, Node.caption [Node.paragraph []]]] ∧
      c.label = none ∧ c.identifier = none) :=
  ⟨(codeDirective_caption_container nlExample { label := some "fig" }).1 rfl,
   (codeDirective_caption_container nlExample
      { label := some "fig", caption := some [] }).2.1 [] rfl⟩

/-- Claim C2, counterexample: on the non-empty list of strings `[" "]`
(every element trimming to empty) the claim's rule (5) demands `undefined`,
but the code returns the empty list. -/
theorem parseTags_blank_list_counterexample :
    (parseTagsF ylExample 2 (Value.list [Value.str " "])).1 = some [] ∧
      (some [] : Option (List String)) ≠ none :=
  ⟨rfl, by decide⟩

/-- Claim C2 (amended in rule (5): a non-empty list of strings returns the
trimmed, empties-dropped result even when that result is empty; only an
empty input list falls through to `undefined`): the ordered rules of
`parseTags` — (1) falsy input gives `undefined` with no diagnostic;
(2) a bracketed string is structurally parsed and recursed, a parse failure
emitting one error diagnostic and `undefined`; (3) a plain string is split
on comma or whitespace, trimmed, empties dropped, an empty result giving
`undefined`; (4) a non-list non-string gives `undefined`; (5) as amended;
(6) a list containing a non-string emits one warning and gives `undefined`.
The quoted examples evaluate as claimed. -/
theorem parseTags_rules (yl : String → Option Value) (n : Nat) :
    (∀ v, falsy v = true → parseTagsF yl n v = (none, [])) ∧
    (∀ s, isBracketed s = true → yl s = none →
      parseTagsF yl n (Value.str s) = (none, [Diag.err tagLoadErrorMsg])) ∧
    (∀ s w, isBracketed s = true → yl s = some w →
      parseTagsF yl (n + 1) (Value.str s) = parseTagsF yl n w) ∧
    (∀ s, s ≠ "" → isBracketed s = false →
      parseTagsF yl n (Value.str s) =
        (if (((splitTags s).map jsTrim).filter (fun t => t != "")).length > 0
         then some (((splitTags s).map jsTrim).filter (fun t => t != ""))
         else none, [])) ∧
    (∀ m : Int, m ≠ 0 → parseTagsF yl n (Value.num m) = (none, [])) ∧
    (parseTagsF yl n (Value.bool true) = (none, [])) ∧
    (∀ l, l ≠ [] → allStrings l = true →
      parseTagsF yl n (Value.list l) =
        (some (((getStrings l).map jsTrim).filter (fun t => t != "")), [])) ∧
    (parseTagsF yl n (Value.list []) = (none, [])) ∧
    (∀ l, allStrings l = false →
      parseTagsF yl n (Value.list l) = (none, [Diag.warn tagListWarnMsg])) ∧
    (parseTagsF yl n (Value.str "remove-input, hide-cell") =
      (some ["remove-input", "hide-cell"], [])) ∧
    (yl "[a,b]" = some (Value.list [Value.str "a", Value.str "b"]) →
      parseTagsF yl (n + 1) (Value.str "[a,b]") = (some ["a", "b"], [])) ∧
    (parseTagsF yl n (Value.num 42) = (none, [])) ∧
    (parseTagsF yl n (Value.list [Value.str "x", Value.num 3]) =
      (none, [Diag.warn tagListWarnMsg])) := by
  refine ⟨?_, ?_, ?_, ?_, ?_, ?_, ?_, ?_, ?_, ?_, ?_, ?_, ?_⟩
  · intro v hv
    cases n <;> simp [parseTagsF, parseTagsStep, hv]
  · intro s hb hy
    have hs := isBracketed_ne_empty hb
    cases n <;> simp [parseTagsF, parseTagsStep, falsy, hs, hb, hy]
  · intro s w hb hy
    have hs := isBracketed_ne_empty hb
    simp [parseTagsF, parseTagsStep, falsy, hs, hb, hy]
  · intro s hs hb
    cases n <;> simp [parseTagsF, parseTagsStep, falsy, hs, hb]
  · intro m hm
    cases n <;> simp [parseTagsF, parseTagsStep, falsy, hm]
  · cases n <;> rfl
  · intro l hl ha
    have hlen : l.length > 0 := by
      cases l with
      | nil => exact absurd rfl hl
      | cons a t => simp
    cases n <;> simp [parseTagsF, parseTagsStep, falsy, ha, hlen]
  · cases n <;> rfl
  · intro l ha
    have hl : l ≠ [] := by
      intro he
      subst he
      exact absurd ha (by decide)
    cases n <;> simp [parseTagsF, parseTagsStep, falsy, ha]
  · cases n <;> rfl
  · intro hy
    have : parseTagsF yl (n + 1) (Value.str "[a,b]") =
        parseTagsF yl n (Value.list [Value.str "a", Value.str "b"]) := by
      simp [parseTagsF, parseTagsStep, falsy, isBracketed, hy]
    rw [this]
    cases n <;> rfl
  · cases n <;> rfl
  · cases n <;> rfl

/-- Claim C2, witness: under a loader that parses `[a,b]` to the list
`["a","b"]`, the bracketed-string rule gives `["a","b"]` with no
diagnostics. -/
theorem parseTags_rules_witness :
    parseTagsF ylExample 2 (Value.str "[a,b]") = (some ["a", "b"], []) :=
  (parseTags_rules ylExample 1).2.2.2.2.2.2.2.2.2.2.1 rfl

/-- Claim C5, counterexample: a `tags` option holding the non-empty list of
blank strings `[" "]` parses to the empty list, and the run function still
attaches it, creating an empty `tags` field on the block's metadata — the
claim says a tags field is attached only when non-empty. -/
theorem codeCell_empty_tags_counterexample :
    headBlockTags
        ((codeCellDirective_run nlExample (fun _ => none) 1 "id1"
          cellDataBlankTags).1) = some (some []) ∧
      (some [] : Option (List String)) ≠ (none : Option (List String)) :=
  ⟨rfl, by decide⟩

/-- Claim C5 (amended only in the tags clause: the tags field is attached
exactly when the tag-parsing algorithm returns a list — that list may be
empty, for instance for a tags option that is a non-empty list of blank
strings, in which case an empty tags field is attached; an absent tags
option still never creates a tags field): every code-cell invocation
produces one `Block` wrapping a `Code` node marked executable (language
taken from the argument, or falling back to an ambient default downstream;
body with `?? ''`) and a fresh `Output` node carrying the newly generated
unique id and empty result data. -/
theorem codeCell_run_structure
    (nl : Option String → Option String × Option String)
    (yl : String → Option Value) (fuel : Nat) (freshId : String)
    (d : CodeCellData) :
    (codeCellDirective_run nl yl fuel freshId d).1 =
      [Node.block (nl d.label).1 (nl d.label).2 "notebook-code"
        (parseTagsF yl fuel (d.tags.getD Value.null)).1
        [Node.code
          { lang := d.arg, executable := some true,
            value := some (d.body.getD "") },
         Node.output freshId []]] ∧
    (d.tags = none → (parseTagsF yl fuel (d.tags.getD Value.null)).1 = none) := by
  constructor
  · rfl
  · intro h
    rw [h]
    cases fuel <;> rfl

/-- Claim C5, witness: a plain python cell with no tags option yields the
block-wrapped executable code and fresh output, and no tags field. -/
theorem codeCell_run_structure_witness :
    (codeCellDirective_run nlExample (fun _ => none) 1 "id1" cellDataPlain).1 =
      [Node.block none none "notebook-code" none
        [Node.code
          { lang := some "python", executable := some true,
            value := some "print(1)" },
         Node.output "id1" []]] ∧
    (parseTagsF (fun _ => none) 1 (cellDataPlain.tags.getD Value.null)).1 =
      none :=
  ⟨(codeCell_run_structure nlExample (fun _ => none) 1 "id1"
      cellDataPlain).1.trans rfl,
   (codeCell_run_structure nlExample (fun _ => none) 1 "id1"
      cellDataPlain).2 rfl⟩

/-- Claim C6: for an accent-macro argument missing from the macro's accent
sub-table, `createText` opens a paragraph, emits one warning identifying the
unresolved character, and still passes the non-existent composed value to
the text emitter; for a hit it emits the composed character into the opened
paragraph with no warning. -/
theorem createText_hit_miss (translate : String → Option String)
    (argText : String) (s : TexState) :
    (translate argText = none →
      createText translate argText s =
        { paragraphOpen := true,
          emitted := s.emitted ++ [none],
          warnings := s.warnings ++ ["Unknown character " ++ argText] }) ∧
    (∀ c, translate argText = some c → c ≠ "" →
      createText translate argText s =
        { paragraphOpen := true,
          emitted := s.emitted ++ [some c],
          warnings := s.warnings }) := by
  constructor
  · intro h
    simp [createText, h, truthyS, openParagraph, stateText, stateWarn]
  · intro c h hc
    simp [createText, h, truthyS, hc, openParagraph, stateText]

/-- Claim C6, witness: with the acute-accent table, argument `"x"` misses
(warning plus pass-through emission of the non-existent value) and argument
`"o"` hits (emits `"ó"`, opening the paragraph). -/
theorem createText_hit_miss_witness :
    createText accentAcute "x" {} =
      { paragraphOpen := true, emitted := [none],
        warnings := ["Unknown character x"] } ∧
    createText accentAcute "o" {} =
      { paragraphOpen := true, emitted := [some "ó"], warnings := [] } :=
  ⟨(createText_hit_miss accentAcute "x" {}).1 rfl,
   (createText_hit_miss accentAcute "o" {}).2 "ó" rfl (by decide)⟩

/-- Claim C8: for any site configuration with at least one project, and any
schedulers that interleave exactly the events of the tasks they are given,
the trace of `buildSite` ends with the single manifest write, every event
before it containing the settling event of every configured project: the
manifest is written only after all project builds settle, never mid-flight. -/
theorem buildSite_manifest_barrier (env : String → Project)
    (schedPages schedProjects : List (List BuildEvent) → List BuildEvent)
    (session : String) (c : SiteConfig) (opts : BuildOpts)
    (hps : ∀ ls e, e ∈ schedPages ls → e ∈ flattenEvents ls)
    (hsound : ∀ ls e, e ∈ schedProjects ls → e ∈ flattenEvents ls)
    (hcomp : ∀ ls e, e ∈ flattenEvents ls → e ∈ schedProjects ls)
    (hne : c.projects ≠ []) :
    ∃ u, (buildSite env schedPages schedProjects session (some c) opts).2 =
        u ++ [BuildEvent.writeManifest] ∧
      BuildEvent.writeManifest ∉ u ∧
      ∀ sp ∈ c.projects, BuildEvent.projectDone sp.path ∈ u := by
  have hI : c.projects.isEmpty = false := by
    cases h : c.projects with
    | nil => exact absurd h hne
    | cons a l => rfl
  refine ⟨((if opts.force || opts.clean then [BuildEvent.cleanFiles] else []) ++
      [BuildEvent.ensureFolders]) ++
      schedProjects (c.projects.map (buildProjectTrace env schedPages)),
    ?_, ?_, ?_⟩
  · simp [buildSite, hI]
  · intro hmem
    rcases List.mem_append.mp hmem with h | h
    · rcases List.mem_append.mp h with h | h
      · by_cases hc : opts.force || opts.clean <;> simp [hc] at h
      · simp at h
    · rcases mem_flattenEvents.mp (hsound _ _ h) with ⟨l, hl, hel⟩
      rcases List.mem_map.mp hl with ⟨sp, _, rfl⟩
      exact writeManifest_not_in_project env schedPages sp hps hel
  · intro sp hsp
    refine List.mem_append_right _ (hcomp _ _ (mem_flattenEvents.mpr
      ⟨buildProjectTrace env schedPages sp, List.mem_map_of_mem _ hsp, ?_⟩))
    simp [buildProjectTrace]

/-- Claim C8, witness: for the one-project configuration under the
sequential scheduler, the trace ends in the manifest write, preceded by the
project's settling event. -/
theorem buildSite_manifest_barrier_witness :
    ∃ u, (buildSite envExample flattenEvents flattenEvents "sess"
        (some cfgExample) { force := false, clean := false }).2 =
        u ++ [BuildEvent.writeManifest] ∧
      BuildEvent.writeManifest ∉ u ∧
      ∀ sp ∈ cfgExample.projects, BuildEvent.projectDone sp.path ∈ u :=
  buildSite_manifest_barrier envExample flattenEvents flattenEvents "sess"
    cfgExample { force := false, clean := false }
    (fun _ _ h => h) (fun _ _ h => h) (fun _ _ h => h) (List.cons_ne_nil _ _)

/-- Claim C9: in every `buildProject` trace, any `processFile` event is
strictly preceded by the project's citation-renderer load: citation data is
available before the first page of the project is processed, for every
scheduler. -/
theorem buildProject_citations_first (env : String → Project)
    (sched : List (List BuildEvent) → List BuildEvent) (sp : SiteProject) :
    ∀ i p f,
      (buildProjectTrace env sched sp).get? i =
          some (BuildEvent.processFile p f) →
      ∃ j, j < i ∧ (buildProjectTrace env sched sp).get? j =
          some (BuildEvent.citationLoad sp.path) := by
  intro i p f h
  match i with
  | 0 =>
    have h0 : some (BuildEvent.loadProjectConfig sp.path) =
        some (BuildEvent.processFile p f) := h
    simp at h0
  | 1 =>
    have h1 : some (BuildEvent.citationLoad sp.path) =
        some (BuildEvent.processFile p f) := h
    simp at h1
  | (k + 2) => exact ⟨1, by omega, rfl⟩

/-- Claim C9, witness: in the concrete one-page project trace the (only)
`processFile` event sits at index 2 and the citation load at index 1 before
it. -/
theorem buildProject_citations_first_witness :
    ∃ j, j < 2 ∧
      (buildProjectTrace envExample flattenEvents
          { path := "p", slug := "s" }).get? j =
        some (BuildEvent.citationLoad "p") :=
  buildProject_citations_first envExample flattenEvents
    { path := "p", slug := "s" } 2 "p" "index.md" rfl

/-- Claim C10: when the selected site configuration is absent or lists no
projects, `buildSite` still performs the optional clean step and creates the
build folders, but builds no project and writes no manifest, returning the
freshly constructed `DocumentCache`. -/
theorem buildSite_no_projects (env : String → Project)
    (schedPages schedProjects : List (List BuildEvent) → List BuildEvent)
    (session : String) (cfg : Option SiteConfig) (opts : BuildOpts)
    (h : cfg = none ∨ ∃ c, cfg = some c ∧ c.projects = []) :
    buildSite env schedPages schedProjects session cfg opts =
      ({ session := session, opts := opts },
        (if opts.force || opts.clean then [BuildEvent.cleanFiles] else []) ++
          [BuildEvent.ensureFolders]) := by
  rcases h with rfl | ⟨c, rfl, hc⟩
  · rfl
  · simp [buildSite, hc]

/-- Claim C10, witness: with no site configuration and the clean option set,
the result is exactly the fresh cache and the clean/folder-creation trace. -/
theorem buildSite_no_projects_witness :
    buildSite envExample flattenEvents flattenEvents "sess" none
        { force := false, clean := true } =
      ({ session := "sess", opts := { force := false, clean := true } },
        [BuildEvent.cleanFiles, BuildEvent.ensureFolders]) :=
  buildSite_no_projects envExample flattenEvents flattenEvents "sess" none
    { force := false, clean := true } (Or.inl rfl)

end MystSpec
